import Mathlib

/-!
Verification of the rss_bot feed-polling, filtering and deduplication
pipeline.  Go strings are modelled as their UTF-8 byte sequences
(`GoStr := List Nat`), timestamps as UTC seconds since the epoch (`Int`,
matching the second-precision `2006-01-02T15:04:05Z` storage layout), and
Go library primitives that live outside the repository (`strings.ToLower`,
`strings.Contains`, `regexp`, `crypto/sha256`, the RSS body parser) as
explicit functional parameters, so that every theorem below is proved for
every possible behaviour of those primitives.
-/

namespace RssBot

/-- A Go string, viewed as its sequence of UTF-8 bytes.  Go `len` and
slicing operate on this byte sequence. -/
abbrev GoStr := List Nat

/-- UTF-8 encoding of a single Unicode code point. -/
def utf8EncodeChar (c : Nat) : List Nat :=
  if c < 128 then [c]
  else if c < 2048 then [192 + c / 64, 128 + c % 64]
  else if c < 65536 then [224 + c / 4096, 128 + (c / 64) % 64, 128 + c % 64]
  else [240 + c / 262144, 128 + (c / 4096) % 64, 128 + (c / 64) % 64, 128 + c % 64]

/-- Embed a Lean string literal as a Go string (UTF-8 bytes). -/
def goStr (s : String) : GoStr :=
  (s.data.map (fun c => utf8EncodeChar c.toNat)).flatten

/-- Number of Unicode characters encoded by a UTF-8 byte sequence: the
count of bytes that are not continuation bytes (`0x80`–`0xBF`). -/
def utf8Length (bs : GoStr) : Nat :=
  (bs.filter (fun b => decide (b < 128) || decide (192 ≤ b))).length

/-- Abstract interface to the Go standard-library primitives used by the
filter engine: `strings.ToLower`, `strings.Contains`, and the `regexp`
package (`ρ` is the type of compiled regular expressions;
`regexpCompile p = none` models `regexp.Compile` returning an error). -/
structure GoLib (ρ : Type) where
  toLower : GoStr → GoStr
  substrContains : GoStr → GoStr → Bool
  regexpCompile : GoStr → Option ρ
  regexpMatchString : ρ → GoStr → Bool

/-! ## Domain model (internal/model/model.go) -/

/-- Filter kind constant `model.FilterInclude`. -/
def kFilterInclude : GoStr := goStr "include"

/-- Filter kind constant `model.FilterExclude`. -/
def kFilterExclude : GoStr := goStr "exclude"

/-- Filter kind constant `model.FilterIncludeRe`. -/
def kFilterIncludeRe : GoStr := goStr "include_re"

/-- Filter kind constant `model.FilterExcludeRe`. -/
def kFilterExcludeRe : GoStr := goStr "exclude_re"

/-- Filter scope constant `model.ScopeTitle`. -/
def kScopeTitle : GoStr := goStr "title"

/-- Filter scope constant `model.ScopeContent`. -/
def kScopeContent : GoStr := goStr "content"

/-- Filter scope constant `model.ScopeAll`. -/
def kScopeAll : GoStr := goStr "all"

/-- `model.Filter`: a single filtering rule attached to a feed.  `Kind` and
`Scope` are Go string types, so arbitrary byte sequences are representable. -/
structure Filter where
  id : Int
  feedId : Int
  kind : GoStr
  scope : GoStr
  value : GoStr
  createdAt : Int
deriving DecidableEq

/-- `model.Feed`: an RSS feed subscription.  `lastCheckAt` is the nullable
last-check timestamp in UTC seconds. -/
structure Feed where
  id : Int
  chatId : Int
  name : GoStr
  url : GoStr
  intervalMinutes : Int
  isActive : Bool
  lastCheckAt : Option Int
  createdAt : Int
deriving DecidableEq

/-! ## Filter engine (internal/filter/engine.go) -/

/-- `filter.FeedItem`: an RSS item to be matched against filters. -/
structure FeedItem where
  title : GoStr
  description : GoStr
deriving DecidableEq

/-- `textForScope` from engine.go: the lowercased text of the item selected
by the filter's scope (title, content, or — by the `default` case — the
title and description joined with a single space). -/
def textForScope {ρ : Type} (L : GoLib ρ) (item : FeedItem) (scope : GoStr) : GoStr :=
  if scope = kScopeTitle then L.toLower item.title
  else if scope = kScopeContent then L.toLower item.description
  else L.toLower (item.title ++ goStr " " ++ item.description)

/-- `matchesFilter` from engine.go: literal kinds use case-insensitive
substring containment; regex kinds compile `"(?i)" + value` and return
`false` when compilation fails; unknown kinds never match. -/
def matchesFilter {ρ : Type} (L : GoLib ρ) (item : FeedItem) (f : Filter) : Bool :=
  let text := textForScope L item f.scope
  if f.kind = kFilterInclude ∨ f.kind = kFilterExclude then
    L.substrContains text (L.toLower f.value)
  else if f.kind = kFilterIncludeRe ∨ f.kind = kFilterExcludeRe then
    match L.regexpCompile (goStr "(?i)" ++ f.value) with
    | none => false
    | some re => L.regexpMatchString re text
  else false

/-- The loop body of `filter.Match`: walks the filter list carrying the
`hasIncludes` and `anyIncludeMatched` flags, returning `false` as soon as
an exclude filter matches, and finally applying the
`hasIncludes && !anyIncludeMatched` rejection. -/
def matchLoop {ρ : Type} (L : GoLib ρ) (item : FeedItem) :
    List Filter → Bool → Bool → Bool
  | [], hasIncludes, anyIncludeMatched => !(hasIncludes && !anyIncludeMatched)
  | f :: fs, hasIncludes, anyIncludeMatched =>
    if f.kind = kFilterInclude ∨ f.kind = kFilterIncludeRe then
      matchLoop L item fs true (anyIncludeMatched || matchesFilter L item f)
    else if f.kind = kFilterExclude ∨ f.kind = kFilterExcludeRe then
      if matchesFilter L item f then false
      else matchLoop L item fs hasIncludes anyIncludeMatched
    else matchLoop L item fs hasIncludes anyIncludeMatched

/-- `filter.Match` from engine.go: an empty filter set always passes;
otherwise the loop over the filters decides. -/
def Match {ρ : Type} (L : GoLib ρ) (item : FeedItem) (filters : List Filter) : Bool :=
  if filters.length = 0 then true
  else matchLoop L item filters false false

/-- A filter kind that the `Match` switch treats as an include. -/
def isIncludeKind (k : GoStr) : Bool :=
  decide (k = kFilterInclude) || decide (k = kFilterIncludeRe)

/-- A filter kind that the `Match` switch treats as an exclude. -/
def isExcludeKind (k : GoStr) : Bool :=
  decide (k = kFilterExclude) || decide (k = kFilterExcludeRe)

/-- Spec-side predicate: some exclude filter matches the item's scoped text. -/
def someExcludeMatches {ρ : Type} (L : GoLib ρ) (item : FeedItem)
    (filters : List Filter) : Bool :=
  filters.any (fun f => isExcludeKind f.kind && matchesFilter L item f)

/-- Spec-side predicate: the filter set contains at least one include filter. -/
def hasIncludeFilter (filters : List Filter) : Bool :=
  filters.any (fun f => isIncludeKind f.kind)

/-- Spec-side predicate: some include filter matches the item's scoped text. -/
def someIncludeMatches {ρ : Type} (L : GoLib ρ) (item : FeedItem)
    (filters : List Filter) : Bool :=
  filters.any (fun f => isIncludeKind f.kind && matchesFilter L item f)

theorem matchLoop_characterization {ρ : Type} (L : GoLib ρ) (item : FeedItem) :
    ∀ (fs : List Filter) (hasIncludes anyIncludeMatched : Bool),
      matchLoop L item fs hasIncludes anyIncludeMatched =
        (!someExcludeMatches L item fs &&
          (!(hasIncludes || hasIncludeFilter fs) ||
            (anyIncludeMatched || someIncludeMatches L item fs))) := by
  intro fs
  induction fs with
  | nil =>
    intro hI aI
    cases hI <;> cases aI <;>
      simp [matchLoop, someExcludeMatches, hasIncludeFilter, someIncludeMatches]
  | cons f fs ih =>
    intro hI aI
    simp only [matchLoop]
    by_cases hInc : f.kind = kFilterInclude ∨ f.kind = kFilterIncludeRe
    · have hik : isIncludeKind f.kind = true := by
        rcases hInc with h | h <;> simp [isIncludeKind, h]
      have hek : isExcludeKind f.kind = false := by
        rcases hInc with h | h <;>
          simp [isExcludeKind, h, kFilterInclude, kFilterExclude,
            kFilterIncludeRe, kFilterExcludeRe, goStr, utf8EncodeChar]
      rw [if_pos hInc, ih]
      simp only [someExcludeMatches, hasIncludeFilter, someIncludeMatches,
        List.any_cons, hik, hek]
      cases hI <;> cases aI <;> cases h1 : matchesFilter L item f <;>
        cases h2 : fs.any (fun g => isExcludeKind g.kind && matchesFilter L item g) <;>
        cases h3 : fs.any (fun g => isIncludeKind g.kind) <;>
        cases h4 : fs.any (fun g => isIncludeKind g.kind && matchesFilter L item g) <;>
        simp
    · by_cases hExc : f.kind = kFilterExclude ∨ f.kind = kFilterExcludeRe
      · have hik : isIncludeKind f.kind = false := by
          rcases hExc with h | h <;>
            simp [isIncludeKind, h, kFilterInclude, kFilterExclude,
              kFilterIncludeRe, kFilterExcludeRe, goStr, utf8EncodeChar]
        have hek : isExcludeKind f.kind = true := by
          rcases hExc with h | h <;> simp [isExcludeKind, h]
        rw [if_neg hInc, if_pos hExc]
        by_cases hm : matchesFilter L item f = true
        · rw [if_pos hm]
          simp [someExcludeMatches, hek, hm]
        · have hm' : matchesFilter L item f = false := by
            cases h : matchesFilter L item f
            · rfl
            · exact absurd h hm
          rw [if_neg hm, ih]
          simp [someExcludeMatches, hasIncludeFilter, someIncludeMatches,
            hik, hek, hm']
      · have hik : isIncludeKind f.kind = false := by
          simp only [isIncludeKind]
          push_neg at hInc
          simp [hInc.1, hInc.2]
        have hek : isExcludeKind f.kind = false := by
          simp only [isExcludeKind]
          push_neg at hExc
          simp [hExc.1, hExc.2]
        rw [if_neg hInc, if_neg hExc, ih]
        simp [someExcludeMatches, hasIncludeFilter, someIncludeMatches, hik, hek]

/-- Claim C1: for every item and every filter set (and every behaviour of
the string/regex library), `Match` returns `true` iff (there are no
include filters OR at least one include filter matches the item's scoped
text) AND no exclude filter matches the item's scoped text.  In particular
an item matching both an include and an exclude filter is rejected, and an
empty filter set passes every item. -/
theorem match_composition_law {ρ : Type} (L : GoLib ρ) (item : FeedItem)
    (filters : List Filter) :
    Match L item filters =
      ((!hasIncludeFilter filters || someIncludeMatches L item filters) &&
        !someExcludeMatches L item filters) := by
  unfold Match
  by_cases h : filters.length = 0
  · have : filters = [] := List.length_eq_zero.mp h
    subst this
    simp [hasIncludeFilter, someIncludeMatches, someExcludeMatches]
  · rw [if_neg h, matchLoop_characterization]
    cases h1 : hasIncludeFilter filters <;>
      cases h2 : someIncludeMatches L item filters <;>
      cases h3 : someExcludeMatches L item filters <;> simp

theorem list_any_filter {α : Type} (p q : α → Bool) :
    ∀ l : List α, (l.filter p).any q = l.any (fun a => p a && q a) := by
  intro l
  induction l with
  | nil => rfl
  | cons a l ih =>
    by_cases h : p a = true
    · simp [List.filter_cons, h, ih]
    · have h' : p a = false := by
        cases hp : p a
        · rfl
        · exact absurd hp h
      simp [List.filter_cons, h', ih]

theorem list_any_congr {α : Type} (p q : α → Bool) (h : ∀ a, p a = q a) :
    ∀ l : List α, l.any p = l.any q := by
  intro l
  induction l with
  | nil => rfl
  | cons a l ih => simp [List.any_cons, h a, ih]

/-- A filter kind handled by some case of the `Match` switch. -/
def isKnownKind (f : Filter) : Bool :=
  isIncludeKind f.kind || isExcludeKind f.kind

/-- Claim C10: a filter whose kind is none of the four defined kinds has no
effect on the match result — `Match` over the full filter list equals
`Match` over the list with all unknown-kind filters removed, for every
item and every library behaviour. -/
theorem match_ignores_unknown_kinds {ρ : Type} (L : GoLib ρ) (item : FeedItem)
    (filters : List Filter) :
    Match L item filters = Match L item (filters.filter isKnownKind) := by
  rw [match_composition_law, match_composition_law]
  unfold hasIncludeFilter someIncludeMatches someExcludeMatches
  rw [list_any_filter, list_any_filter, list_any_filter]
  have h1 : ∀ f : Filter,
      (isKnownKind f && isIncludeKind f.kind) = isIncludeKind f.kind := by
    intro f
    unfold isKnownKind
    cases h : isIncludeKind f.kind <;> simp [h]
  have h2 : ∀ f : Filter,
      (isKnownKind f && (isIncludeKind f.kind && matchesFilter L item f)) =
        (isIncludeKind f.kind && matchesFilter L item f) := by
    intro f
    unfold isKnownKind
    cases h : isIncludeKind f.kind <;> simp [h]
  have h3 : ∀ f : Filter,
      (isKnownKind f && (isExcludeKind f.kind && matchesFilter L item f)) =
        (isExcludeKind f.kind && matchesFilter L item f) := by
    intro f
    unfold isKnownKind
    cases h : isExcludeKind f.kind <;> simp [h]
  rw [list_any_congr _ _ h1, list_any_congr _ _ h2, list_any_congr _ _ h3]

theorem kind_includeRe_not_literal :
    kFilterIncludeRe ≠ kFilterInclude ∧ kFilterIncludeRe ≠ kFilterExclude ∧
      kFilterExcludeRe ≠ kFilterInclude ∧ kFilterExcludeRe ≠ kFilterExclude ∧
      kFilterIncludeRe ≠ kFilterExclude := by
  decide

/-- A regex filter whose pattern does not compile never matches any item. -/
theorem matchesFilter_bad_regex {ρ : Type} (L : GoLib ρ) (item : FeedItem)
    (f : Filter) (hk : f.kind = kFilterIncludeRe ∨ f.kind = kFilterExcludeRe)
    (hc : L.regexpCompile (goStr "(?i)" ++ f.value) = none) :
    matchesFilter L item f = false := by
  unfold matchesFilter
  have hlit : ¬(f.kind = kFilterInclude ∨ f.kind = kFilterExclude) := by
    rcases hk with h | h <;> rw [h] <;> intro hcon <;> rcases hcon with h' | h' <;>
      revert h' <;> decide
  rw [if_neg hlit, if_pos hk, hc]

/-- Claim C5: an include-regex filter whose pattern fails to compile in
case-insensitive mode never makes an item pass via that filter (if the item
passes with that filter present, it also passes without it), an
exclude-regex filter whose pattern fails to compile never vetoes the item
(the match result is unchanged by removing it), and in both cases the
malformed pattern is treated as never matching rather than as an error. -/
theorem invalid_regex_fails_closed {ρ : Type} (L : GoLib ρ) (item : FeedItem)
    (f : Filter) (fs₁ fs₂ : List Filter)
    (hc : L.regexpCompile (goStr "(?i)" ++ f.value) = none) :
    (f.kind = kFilterIncludeRe →
      Match L item (fs₁ ++ f :: fs₂) = true → Match L item (fs₁ ++ fs₂) = true) ∧
    (f.kind = kFilterExcludeRe →
      Match L item (fs₁ ++ f :: fs₂) = Match L item (fs₁ ++ fs₂)) ∧
    ((f.kind = kFilterIncludeRe ∨ f.kind = kFilterExcludeRe) →
      matchesFilter L item f = false) := by
  refine ⟨?_, ?_, fun hk => matchesFilter_bad_regex L item f hk hc⟩
  · intro hk
    have hmf : matchesFilter L item f = false :=
      matchesFilter_bad_regex L item f (Or.inl hk) hc
    have hik : isIncludeKind f.kind = true := by
      simp [isIncludeKind, hk]
    have hek : isExcludeKind f.kind = false := by
      rw [hk]; decide
    rw [match_composition_law, match_composition_law]
    simp only [someExcludeMatches, hasIncludeFilter, someIncludeMatches,
      List.any_append, List.any_cons, hik, hek, hmf, Bool.false_and,
      Bool.and_false, Bool.true_and, Bool.false_or]
    cases h1 : fs₁.any (fun g => isExcludeKind g.kind && matchesFilter L item g) <;>
      cases h2 : fs₂.any (fun g => isExcludeKind g.kind && matchesFilter L item g) <;>
      cases h3 : fs₁.any (fun g => isIncludeKind g.kind) <;>
      cases h4 : fs₂.any (fun g => isIncludeKind g.kind) <;>
      cases h5 : fs₁.any (fun g => isIncludeKind g.kind && matchesFilter L item g) <;>
      cases h6 : fs₂.any (fun g => isIncludeKind g.kind && matchesFilter L item g) <;>
      simp
  · intro hk
    have hmf : matchesFilter L item f = false :=
      matchesFilter_bad_regex L item f (Or.inr hk) hc
    have hik : isIncludeKind f.kind = false := by
      rw [hk]; decide
    have hek : isExcludeKind f.kind = true := by
      simp [isExcludeKind, hk]
    rw [match_composition_law, match_composition_law]
    simp only [someExcludeMatches, hasIncludeFilter, someIncludeMatches,
      List.any_append, List.any_cons, hik, hek, hmf, Bool.false_and,
      Bool.and_false, Bool.true_and, Bool.false_or, Bool.or_false]

/-- A concrete library instance whose regex compiler rejects every pattern,
used to instantiate theorems at concrete inputs. -/
def nullLib : GoLib Unit where
  toLower := fun s => s
  substrContains := fun _ _ => false
  regexpCompile := fun _ => none
  regexpMatchString := fun _ _ => false

/-- A concrete include-regex filter with the unparsable pattern `"["`. -/
def badIncludeReFilter : Filter :=
  { id := 1, feedId := 1, kind := kFilterIncludeRe, scope := kScopeAll,
    value := goStr "[", createdAt := 0 }

theorem invalid_regex_fails_closed_witness :
    (badIncludeReFilter.kind = kFilterIncludeRe →
      Match nullLib ⟨goStr "t", goStr "d"⟩ ([] ++ badIncludeReFilter :: []) = true →
        Match nullLib ⟨goStr "t", goStr "d"⟩ ([] ++ []) = true) ∧
    (badIncludeReFilter.kind = kFilterExcludeRe →
      Match nullLib ⟨goStr "t", goStr "d"⟩ ([] ++ badIncludeReFilter :: []) =
        Match nullLib ⟨goStr "t", goStr "d"⟩ ([] ++ [])) ∧
    ((badIncludeReFilter.kind = kFilterIncludeRe ∨
        badIncludeReFilter.kind = kFilterExcludeRe) →
      matchesFilter nullLib ⟨goStr "t", goStr "d"⟩ badIncludeReFilter = false) :=
  invalid_regex_fails_closed nullLib ⟨goStr "t", goStr "d"⟩ badIncludeReFilter
    [] [] rfl

/-! ## Ledger (internal/storage/sqlite.go)

The SQLite store is modelled relationally: the `feeds` table as a
`List Feed` and the `seen_items` table as a `List SeenRow`.  Timestamps are
UTC seconds; the stored `2006-01-02T15:04:05Z` strings have exactly second
precision and SQLite `datetime` comparison on them is chronological
comparison, so `datetime(last_check_at, '+' || interval_minutes ||
' minutes') <= datetime(now)` is `lastCheckAt + intervalMinutes*60 ≤ now`. -/

/-- A row of the `seen_items` table: `(feed_id, guid)` is the primary key,
`seen_at` defaults to the insertion time. -/
structure SeenRow where
  feedId : Int
  guid : GoStr
  seenAt : Int
deriving DecidableEq

/-- Whether a row with the given `(feed_id, guid)` primary key exists. -/
def seenKeyPresent (seen : List SeenRow) (feedId : Int) (guid : GoStr) : Bool :=
  seen.any (fun r => decide (r.feedId = feedId) && decide (r.guid = guid))

/-- `SQLite.MarkSeen`: `INSERT OR IGNORE INTO seen_items (feed_id, guid)` —
a row is appended unless the primary key is already present, in which case
the statement is a no-op rather than an error. -/
def MarkSeen (seen : List SeenRow) (now feedId : Int) (guid : GoStr) :
    List SeenRow :=
  if seenKeyPresent seen feedId guid then seen
  else seen ++ [{ feedId := feedId, guid := guid, seenAt := now }]

/-- `SQLite.IsSeen`: `SELECT COUNT(*) ... WHERE feed_id = ? AND guid = ?`
compared against zero. -/
def IsSeen (seen : List SeenRow) (feedId : Int) (guid : GoStr) : Bool :=
  seenKeyPresent seen feedId guid

theorem seenKeyPresent_markSeen (seen : List SeenRow) (now feedId : Int)
    (guid : GoStr) : seenKeyPresent (MarkSeen seen now feedId guid) feedId guid = true := by
  unfold MarkSeen
  by_cases h : seenKeyPresent seen feedId guid = true
  · rw [if_pos h]; exact h
  · have h' : seenKeyPresent seen feedId guid = false := by
      cases hp : seenKeyPresent seen feedId guid
      · rfl
      · exact absurd hp h
    rw [if_neg (by simp [h'])]
    unfold seenKeyPresent at h' ⊢
    simp [List.any_append]

/-- Claim C3: for every `(feedId, guid)` pair (and any insertion
timestamps), calling `MarkSeen` twice leaves the seen-set exactly equal to
calling it once — the duplicate call neither fails nor duplicates state —
and `IsSeen` returns `true` after either one or two calls. -/
theorem markSeen_idempotent (seen : List SeenRow) (now now' feedId : Int)
    (guid : GoStr) :
    MarkSeen (MarkSeen seen now feedId guid) now' feedId guid =
      MarkSeen seen now feedId guid ∧
    IsSeen (MarkSeen seen now feedId guid) feedId guid = true ∧
    IsSeen (MarkSeen (MarkSeen seen now feedId guid) now' feedId guid)
      feedId guid = true := by
  have h1 := seenKeyPresent_markSeen seen now feedId guid
  refine ⟨?_, h1, ?_⟩
  · unfold MarkSeen
    rw [if_pos]
    exact seenKeyPresent_markSeen seen now feedId guid
  · have h2 : MarkSeen (MarkSeen seen now feedId guid) now' feedId guid =
        MarkSeen seen now feedId guid := by
      unfold MarkSeen
      rw [if_pos]
      exact seenKeyPresent_markSeen seen now feedId guid
    rw [h2]
    exact h1

/-- The due predicate of `SQLite.ListDueFeeds`'s `WHERE` clause:
`is_active = 1 AND (last_check_at IS NULL OR datetime(last_check_at,
'+' || interval_minutes || ' minutes') <= datetime(now))`. -/
def isDue (now : Int) (f : Feed) : Bool :=
  f.isActive &&
    (match f.lastCheckAt with
     | none => true
     | some t => decide (t + f.intervalMinutes * 60 ≤ now))

/-- `SQLite.ListDueFeeds`: the rows of the `feeds` table satisfying the due
predicate at the (UTC, second-precision) query time `now`. -/
def ListDueFeeds (now : Int) (feeds : List Feed) : List Feed :=
  feeds.filter (isDue now)

/-- Claim C2: `ListDueFeeds` returns exactly the feeds satisfying the due
predicate — a stored feed is returned iff `isActive = true` and
(`lastCheckAt` is null, or `lastCheckAt + intervalMinutes * 60` seconds
`≤ now`), each feed judged with its own interval (times in UTC seconds,
matching the second-precision stored timestamps). -/
theorem listDueFeeds_exact (now : Int) (feeds : List Feed) (f : Feed) :
    f ∈ ListDueFeeds now feeds ↔
      f ∈ feeds ∧ f.isActive = true ∧
        (f.lastCheckAt = none ∨
          ∃ t, f.lastCheckAt = some t ∧ t + f.intervalMinutes * 60 ≤ now) := by
  unfold ListDueFeeds
  rw [List.mem_filter]
  constructor
  · rintro ⟨hmem, hdue⟩
    refine ⟨hmem, ?_, ?_⟩
    · unfold isDue at hdue
      exact (Bool.and_eq_true _ _).mp hdue |>.1
    · unfold isDue at hdue
      have h2 := (Bool.and_eq_true _ _).mp hdue |>.2
      cases hlc : f.lastCheckAt with
      | none => exact Or.inl rfl
      | some t =>
        refine Or.inr ⟨t, rfl, ?_⟩
        rw [hlc] at h2
        exact of_decide_eq_true h2
  · rintro ⟨hmem, hact, hdue⟩
    refine ⟨hmem, ?_⟩
    unfold isDue
    rw [hact]
    rcases hdue with h | ⟨t, ht, hle⟩
    · rw [h]
      rfl
    · rw [ht]
      simp [hle]

/-! ## Retriever (internal/fetcher/fetcher.go) -/

/-- A parsed `gofeed.Item`: the fields the pipeline reads (`Title`,
`Description`, `Link`, `GUID`; an absent GUID is the empty string). -/
structure GoFeedItem where
  title : GoStr
  description : GoStr
  link : GoStr
  guid : GoStr
deriving DecidableEq

/-- A parsed `gofeed.Feed`: the fields the pipeline reads. -/
structure ParsedFeed where
  title : GoStr
  items : List GoFeedItem
deriving DecidableEq

/-- `fetcher.MatchedItem`: a single RSS item that passed filtering. -/
structure MatchedItem where
  title : GoStr
  description : GoStr
  link : GoStr
  guid : GoStr
deriving DecidableEq

/-- The lowercase hex digit for a value below 16, as its ASCII byte. -/
def hexDigit (n : Nat) : Nat :=
  if n < 10 then 48 + n else 87 + n

/-- `fmt.Sprintf("%x", bs)` on a byte slice: each byte becomes exactly two
lowercase hex digits. -/
def hexEncode (bs : List Nat) : GoStr :=
  (bs.map (fun b => [hexDigit (b / 16), hexDigit (b % 16)])).flatten

/-- `fetcher.ItemGUID`: the item's own GUID verbatim when non-empty,
otherwise `"sha256:" + %x` of the first 16 bytes of the SHA-256 digest of
`Title + "|" + Link`.  `sha256Sum` abstracts `crypto/sha256.Sum256` (a
32-byte digest). -/
def ItemGUID (sha256Sum : GoStr → List Nat) (item : GoFeedItem) : GoStr :=
  if item.guid ≠ [] then item.guid
  else goStr "sha256:" ++
    hexEncode ((sha256Sum (item.title ++ goStr "|" ++ item.link)).take 16)

/-- A byte of a lowercase-hex string: `0`–`9` or `a`–`f` in ASCII. -/
def isLowerHexDigit (c : Nat) : Prop :=
  (48 ≤ c ∧ c ≤ 57) ∨ (97 ≤ c ∧ c ≤ 102)

theorem hexDigit_isLowerHex (n : Nat) (h : n < 16) : isLowerHexDigit (hexDigit n) := by
  unfold hexDigit isLowerHexDigit
  by_cases h10 : n < 10
  · rw [if_pos h10]
    omega
  · rw [if_neg h10]
    omega

theorem hexEncode_length (bs : List Nat) : (hexEncode bs).length = 2 * bs.length := by
  unfold hexEncode
  induction bs with
  | nil => rfl
  | cons b bs ih =>
    simp only [List.map_cons, List.flatten_cons, List.length_append, ih,
      List.length_cons]
    simp
    omega

theorem hexEncode_digits (bs : List Nat) (hb : ∀ b ∈ bs, b < 256) :
    ∀ c ∈ hexEncode bs, isLowerHexDigit c := by
  unfold hexEncode
  induction bs with
  | nil => intro c hc; simp at hc
  | cons b bs ih =>
    intro c hc
    simp only [List.map_cons, List.flatten_cons, List.mem_append] at hc
    rcases hc with hc | hc
    · have hb' : b < 256 := hb b (List.mem_cons_self b bs)
      simp only [List.mem_cons, List.not_mem_nil, or_false] at hc
      rcases hc with h | h
      · rw [h]
        exact hexDigit_isLowerHex _ (by omega)
      · rw [h]
        exact hexDigit_isLowerHex _ (by omega)
    · exact ih (fun x hx => hb x (List.mem_cons_of_mem b hx)) c hc

/-- Claim C4: the derived GUID is the raw identifier verbatim when that is
non-empty; otherwise it is `"sha256:"` followed by the lowercase hex
encoding of the first 16 bytes of the SHA-256 digest of
`title + "|" + link` — 32 hex characters, all lowercase hex digits — for
every digest function producing 32 bytes. -/
theorem itemGUID_derivation (sha256Sum : GoStr → List Nat) (item : GoFeedItem)
    (hlen : ∀ s, (sha256Sum s).length = 32)
    (hbyte : ∀ s, ∀ b ∈ sha256Sum s, b < 256) :
    (item.guid ≠ [] → ItemGUID sha256Sum item = item.guid) ∧
    (item.guid = [] →
      ItemGUID sha256Sum item = goStr "sha256:" ++
        hexEncode ((sha256Sum (item.title ++ goStr "|" ++ item.link)).take 16) ∧
      (hexEncode ((sha256Sum (item.title ++ goStr "|" ++ item.link)).take 16)).length
        = 32 ∧
      ∀ c ∈ hexEncode ((sha256Sum (item.title ++ goStr "|" ++ item.link)).take 16),
        isLowerHexDigit c) := by
  constructor
  · intro h
    unfold ItemGUID
    rw [if_pos h]
  · intro h
    refine ⟨?_, ?_, ?_⟩
    · unfold ItemGUID
      rw [if_neg (by simp [h])]
    · rw [hexEncode_length, List.length_take, hlen]
      decide
    · apply hexEncode_digits
      intro b hb
      exact hbyte _ b (List.mem_of_mem_take hb)

/-- A concrete stand-in digest (32 zero bytes) used to instantiate the
digest-parameterized theorems at concrete inputs. -/
def zeroSha : GoStr → List Nat := fun _ => List.replicate 32 0

theorem itemGUID_derivation_witness :
    (((⟨goStr "t", goStr "d", goStr "l", []⟩ : GoFeedItem).guid ≠ []) →
      ItemGUID zeroSha ⟨goStr "t", goStr "d", goStr "l", []⟩ =
        (⟨goStr "t", goStr "d", goStr "l", []⟩ : GoFeedItem).guid) ∧
    (((⟨goStr "t", goStr "d", goStr "l", []⟩ : GoFeedItem).guid = []) →
      ItemGUID zeroSha ⟨goStr "t", goStr "d", goStr "l", []⟩ = goStr "sha256:" ++
        hexEncode ((zeroSha (goStr "t" ++ goStr "|" ++ goStr "l")).take 16) ∧
      (hexEncode ((zeroSha (goStr "t" ++ goStr "|" ++ goStr "l")).take 16)).length
        = 32 ∧
      ∀ c ∈ hexEncode ((zeroSha (goStr "t" ++ goStr "|" ++ goStr "l")).take 16),
        isLowerHexDigit c) :=
  itemGUID_derivation zeroSha ⟨goStr "t", goStr "d", goStr "l", []⟩
    (fun _ => rfl) (fun _ b hb => by
      have : b = 0 := List.eq_of_mem_replicate hb
      omega)

/-- The description cap applied inside `fetcher.FilterItems`: Go `len` and
slicing count bytes, so a description longer than 300 bytes is cut at byte
300 and `"..."` is appended. -/
def truncateDescription (desc : GoStr) : GoStr :=
  if 300 < desc.length then desc.take 300 ++ goStr "..." else desc

/-- `fetcher.FilterItems`: each fetched item is matched against the feed's
filters; the survivors are normalized to `MatchedItem`s in order, with the
description cap applied and the GUID derived by `ItemGUID`. -/
def FilterItems {ρ : Type} (L : GoLib ρ) (sha256Sum : GoStr → List Nat)
    (filters : List Filter) : List GoFeedItem → List MatchedItem
  | [] => []
  | item :: rest =>
    if Match L { title := item.title, description := item.description } filters then
      { title := item.title,
        description := truncateDescription item.description,
        link := item.link,
        guid := ItemGUID sha256Sum item } :: FilterItems L sha256Sum filters rest
    else FilterItems L sha256Sum filters rest

/-- A 151-character, 302-byte description: 151 copies of U+00E9 (`é`),
whose UTF-8 encoding is the two bytes `0xC3 0xA9`. -/
def multibyteDesc : GoStr := (List.replicate 151 [195, 169]).flatten

/-- A feed item carrying `multibyteDesc` and an explicit GUID. -/
def multibyteItem : GoFeedItem :=
  { title := [], description := multibyteDesc, link := [], guid := [97] }

set_option maxRecDepth 8192 in
/-- Counterexample to claim C6 as stated: `multibyteDesc` is 151
*characters* long — at most 300 — yet the delivered description differs
from the source description, because the code caps at 300 *bytes*
(the 151 two-byte characters occupy 302 bytes). -/
theorem truncation_character_claim_counterexample :
    utf8Length multibyteDesc = 151 ∧
    multibyteDesc.length = 302 ∧
    (FilterItems nullLib zeroSha [] [multibyteItem]).map
        (fun m => m.description) ≠ [multibyteDesc] := by
  refine ⟨by decide, by decide, by decide⟩

/-- Claim C6 amended (bytes, not characters): every item surviving
filtering carries a description of at most 303 bytes; it equals the source
description exactly when that is at most 300 bytes, and otherwise is the
first 300 bytes of the source followed by `"..."`. -/
theorem filterItems_truncation {ρ : Type} (L : GoLib ρ)
    (sha256Sum : GoStr → List Nat) (filters : List Filter)
    (items : List GoFeedItem) (m : MatchedItem)
    (hm : m ∈ FilterItems L sha256Sum filters items) :
    m.description.length ≤ 303 ∧
    ∃ item ∈ items,
      (item.description.length ≤ 300 → m.description = item.description) ∧
      (300 < item.description.length →
        m.description = item.description.take 300 ++ goStr "...") := by
  induction items with
  | nil => simp [FilterItems] at hm
  | cons item rest ih =>
    unfold FilterItems at hm
    by_cases hmatch :
        Match L { title := item.title, description := item.description } filters = true
    · rw [if_pos hmatch] at hm
      rcases List.mem_cons.mp hm with heq | htail
      · subst heq
        constructor
        · simp only [truncateDescription]
          by_cases hlen : 300 < item.description.length
          · rw [if_pos hlen]
            have h3 : (goStr "...").length = 3 := by decide
            rw [List.length_append, List.length_take, h3]
            omega
          · rw [if_neg hlen]
            omega
        · refine ⟨item, List.mem_cons_self item rest, ?_, ?_⟩
          · intro hle
            simp only [truncateDescription]
            rw [if_neg (by omega)]
          · intro hgt
            simp only [truncateDescription]
            rw [if_pos hgt]
      · rcases ih htail with ⟨h1, it, hit, h2⟩
        exact ⟨h1, it, List.mem_cons_of_mem item hit, h2⟩
    · rw [if_neg hmatch] at hm
      rcases ih hm with ⟨h1, it, hit, h2⟩
      exact ⟨h1, it, List.mem_cons_of_mem item hit, h2⟩

/-- The single matched item produced from `multibyteItem` with no filters. -/
def multibyteMatched : MatchedItem :=
  { title := [], description := multibyteDesc.take 300 ++ goStr "...",
    link := [], guid := [97] }

set_option maxRecDepth 8192 in
theorem filterItems_truncation_witness :
    multibyteMatched.description.length ≤ 303 ∧
    ∃ item ∈ [multibyteItem],
      (item.description.length ≤ 300 →
        multibyteMatched.description = item.description) ∧
      (300 < item.description.length →
        multibyteMatched.description = item.description.take 300 ++ goStr "...") :=
  filterItems_truncation nullLib zeroSha [] [multibyteItem] multibyteMatched
    (by decide)

/-! ## Fetch (internal/fetcher/fetcher.go, `Fetcher.Fetch`) -/

/-- An HTTP response as seen by `Fetch`: status code and body. -/
structure HttpResponse where
  statusCode : Int
  body : GoStr
deriving DecidableEq

/-- The distinct failure cases of `Fetcher.Fetch`, one per wrapped error
message in the source (`create request`, `http get`, `unexpected status %d`,
`read body`, `parse feed`). -/
inductive FetchError where
  | createRequest : FetchError
  | httpGet : FetchError
  | unexpectedStatus : Int → FetchError
  | readBody : FetchError
  | parseFeed : FetchError
deriving DecidableEq

/-- `Fetcher.Fetch`, given the transport outcome (`client.Do`): a transport
error is wrapped as `httpGet`; a status other than `http.StatusOK` (200)
yields `unexpectedStatus`; otherwise the body — capped at 5 MiB by the
`io.LimitReader` — is handed to the parser (`gofeed.Parser.ParseString`,
abstracted as `parseString`), whose failure yields `parseFeed` and whose
success is returned. -/
def Fetch (parseString : GoStr → Option ParsedFeed) :
    Except Unit HttpResponse → Except FetchError ParsedFeed
  | Except.error _ => Except.error FetchError.httpGet
  | Except.ok r =>
    if r.statusCode ≠ 200 then Except.error (FetchError.unexpectedStatus r.statusCode)
    else
      match parseString (r.body.take 5242880) with
      | none => Except.error FetchError.parseFeed
      | some feed => Except.ok feed

/-- A parser that accepts every body, producing an empty feed. -/
def parseAnything : GoStr → Option ParsedFeed :=
  fun _ => some { title := [], items := [] }

/-- Counterexample to claim C7 as stated: a response with the 2xx status
201 and a parsable body does not succeed — `Fetch` rejects every status
other than exactly 200. -/
theorem fetch_2xx_claim_counterexample :
    ((200 : Int) ≤ 201 ∧ (201 : Int) < 300) ∧
    parseAnything (([] : GoStr).take 5242880) = some { title := [], items := [] } ∧
    Fetch parseAnything (Except.ok { statusCode := 201, body := [] }) =
      Except.error (FetchError.unexpectedStatus 201) := by
  refine ⟨by decide, rfl, ?_⟩
  simp [Fetch]

/-- Claim C7 amended: `Fetch` fails with a status error on every response
whose status is not exactly 200 (in particular on every non-2xx status),
fails with the distinct parse error when a status-200 body does not parse,
fails with the transport error when the request itself fails, and succeeds
exactly on status-200 responses whose (5 MiB-capped) body parses. -/
theorem fetch_status_exactly_200 (parseString : GoStr → Option ParsedFeed)
    (resp : Except Unit HttpResponse) :
    (∀ u, resp = Except.error u →
      Fetch parseString resp = Except.error FetchError.httpGet) ∧
    (∀ r, resp = Except.ok r → r.statusCode ≠ 200 →
      Fetch parseString resp = Except.error (FetchError.unexpectedStatus r.statusCode)) ∧
    (∀ r, resp = Except.ok r → r.statusCode = 200 →
      parseString (r.body.take 5242880) = none →
      Fetch parseString resp = Except.error FetchError.parseFeed) ∧
    (∀ r feed, resp = Except.ok r → r.statusCode = 200 →
      parseString (r.body.take 5242880) = some feed →
      Fetch parseString resp = Except.ok feed) ∧
    (∀ c, FetchError.parseFeed ≠ FetchError.unexpectedStatus c) ∧
    FetchError.parseFeed ≠ FetchError.httpGet := by
  refine ⟨?_, ?_, ?_, ?_, fun c => by simp, by simp⟩
  · intro u h
    subst h
    rfl
  · intro r h hs
    subst h
    simp only [Fetch]
    rw [if_pos hs]
  · intro r h hs hp
    subst h
    simp only [Fetch]
    rw [if_neg (by simp [hs]), hp]
  · intro r feed h hs hp
    subst h
    simp only [Fetch]
    rw [if_neg (by simp [hs]), hp]

theorem fetch_status_exactly_200_witness :
    Fetch parseAnything (Except.ok { statusCode := 200, body := [] }) =
      Except.ok { title := [], items := [] } ∧
    Fetch parseAnything (Except.ok { statusCode := 404, body := [] }) =
      Except.error (FetchError.unexpectedStatus 404) :=
  ⟨(fetch_status_exactly_200 parseAnything
      (Except.ok { statusCode := 200, body := [] })).2.2.2.1 _ _ rfl rfl rfl,
   (fetch_status_exactly_200 parseAnything
      (Except.ok { statusCode := 404, body := [] })).2.1 _ rfl (by decide)⟩

/-! ## Poller (internal/scheduler/scheduler.go)

`processFeed` is modelled with explicit state passing over the store
(`StoreState`) and an environment `PollEnv` fixing, for one feed's
processing, the outcomes of the effectful calls: the fetch result, the
filter-load result, and per-call failure oracles for the seen-check,
mark-seen and feed-update store operations (a failing store call leaves the
SQLite state unchanged and is only logged by the scheduler). -/

/-- The persistent store as seen by one polling cycle. -/
structure StoreState where
  feeds : List Feed
  seen : List SeenRow
deriving DecidableEq

/-- A message passed to `Sender.SendMessage`. -/
structure SentMessage where
  chatId : Int
  text : GoStr
deriving DecidableEq

/-- The environment of one `processFeed` call. -/
structure PollEnv (ρ : Type) where
  lib : GoLib ρ
  sha256Sum : GoStr → List Nat
  now : Int
  fetchResult : Except FetchError ParsedFeed
  filtersResult : Except Unit (List Filter)
  isSeenFails : GoStr → Bool
  markSeenFails : GoStr → Bool
  updateFeedFails : Bool

/-- `SQLite.UpdateFeed`: `UPDATE feeds SET name, url, interval_minutes,
is_active, last_check_at WHERE id = ?` — the row(s) with the feed's id take
those five fields from the passed feed; `chat_id` and `created_at` are not
touched. -/
def UpdateFeed (st : StoreState) (feed : Feed) : StoreState :=
  { st with
    feeds := st.feeds.map (fun f =>
      if f.id = feed.id then
        { f with name := feed.name, url := feed.url,
                 intervalMinutes := feed.intervalMinutes,
                 isActive := feed.isActive, lastCheckAt := feed.lastCheckAt }
      else f) }

/-- `Scheduler.updateLastCheck`: sets the feed's `LastCheckAt` to the
current UTC time and persists it with `UpdateFeed`; a store failure is
logged and leaves the state unchanged. -/
def updateLastCheck {ρ : Type} (env : PollEnv ρ) (feed : Feed)
    (st : StoreState) : StoreState :=
  if env.updateFeedFails then st
  else UpdateFeed st { feed with lastCheckAt := some env.now }

/-- `bot.FormatNotification`: `"[" + feedName + "]\n\n" + title`, then the
description and the link each preceded by a blank line when non-empty
(bytes 10 are `\n`). -/
def FormatNotification (feedName : GoStr) (item : MatchedItem) : GoStr :=
  goStr "[" ++ feedName ++ goStr "]" ++ [10, 10] ++ item.title ++
    (if item.description ≠ [] then [10, 10] ++ item.description else []) ++
    (if item.link ≠ [] then [10, 10] ++ item.link else [])

/-- The delivery loop of `Scheduler.processFeed`: for each matched item in
order, check `IsSeen` (a store error skips the item and continues), skip
seen items, otherwise send the formatted notification, then `MarkSeen`
(a store error is only logged). -/
def sendLoop {ρ : Type} (env : PollEnv ρ) (feed : Feed) :
    List MatchedItem → StoreState → List SentMessage × StoreState
  | [], st => ([], st)
  | item :: rest, st =>
    if env.isSeenFails item.guid then sendLoop env feed rest st
    else if IsSeen st.seen feed.id item.guid then sendLoop env feed rest st
    else
      let msg := FormatNotification feed.name item
      let st' := if env.markSeenFails item.guid then st
                 else { st with seen := MarkSeen st.seen env.now feed.id item.guid }
      let r := sendLoop env feed rest st'
      ({ chatId := feed.chatId, text := msg } :: r.1, r.2)

/-- `Scheduler.processFeed`: fetch — on failure, still update the last
check; then load filters — on failure, return with the state untouched;
then filter the items and run the delivery loop; finally update the last
check. -/
def processFeed {ρ : Type} (env : PollEnv ρ) (feed : Feed) (st : StoreState) :
    List SentMessage × StoreState :=
  match env.fetchResult with
  | Except.error _ => ([], updateLastCheck env feed st)
  | Except.ok rssFeed =>
    match env.filtersResult with
    | Except.error _ => ([], st)
    | Except.ok filters =>
      let matched := FilterItems env.lib env.sha256Sum filters rssFeed.items
      let r := sendLoop env feed matched st
      (r.1, updateLastCheck env feed r.2)

/-- The loop body of `Scheduler.checkAll` over the due feeds of one cycle
(in the absence of cancellation): each feed is processed in sequence on the
state left by its predecessors. -/
def processFeeds {ρ : Type} (envOf : Feed → PollEnv ρ) :
    List Feed → StoreState → List SentMessage × StoreState
  | [], st => ([], st)
  | feed :: rest, st =>
    let r1 := processFeed (envOf feed) feed st
    let r2 := processFeeds envOf rest r1.2
    (r1.1 ++ r2.1, r2.2)

/-- Claim C8: when loading a due feed's filters fails (after a successful
fetch), the Poller abandons the feed for the cycle — no notification is
sent, no seen-entry is written, and the feed's last-checked timestamp is
not advanced (the whole store state is returned unchanged) — and the cycle
continues with the next feed exactly as if this feed had not been in it. -/
theorem processFeed_filter_load_failure {ρ : Type} (env : PollEnv ρ)
    (feed : Feed) (st : StoreState) (pf : ParsedFeed) (e : Unit)
    (hfetch : env.fetchResult = Except.ok pf)
    (hfil : env.filtersResult = Except.error e) :
    processFeed env feed st = ([], st) ∧
    (∀ (envOf : Feed → PollEnv ρ) (rest : List Feed), envOf feed = env →
      processFeeds envOf (feed :: rest) st = processFeeds envOf rest st) := by
  have hmain : processFeed env feed st = ([], st) := by
    unfold processFeed
    rw [hfetch, hfil]
  refine ⟨hmain, ?_⟩
  intro envOf rest henv
  conv_lhs => rw [processFeeds]
  rw [henv, hmain]
  simp

/-- A concrete poll environment whose fetch succeeds with an empty feed but
whose filter load fails. -/
def envFilterFail : PollEnv Unit :=
  { lib := nullLib, sha256Sum := zeroSha, now := 1000,
    fetchResult := Except.ok { title := [], items := [] },
    filtersResult := Except.error (),
    isSeenFails := fun _ => false, markSeenFails := fun _ => false,
    updateFeedFails := false }

/-- A concrete stored feed. -/
def cFeed : Feed :=
  { id := 1, chatId := 100, name := goStr "F", url := goStr "u",
    intervalMinutes := 15, isActive := true, lastCheckAt := none,
    createdAt := 0 }

/-- A concrete store holding `cFeed` and an empty seen-set. -/
def cStore : StoreState := { feeds := [cFeed], seen := [] }

theorem processFeed_filter_load_failure_witness :
    processFeed envFilterFail cFeed cStore = ([], cStore) ∧
    processFeeds (fun _ => envFilterFail) (cFeed :: []) cStore =
      processFeeds (fun _ => envFilterFail) [] cStore :=
  have h := processFeed_filter_load_failure envFilterFail cFeed cStore
    { title := [], items := [] } () rfl rfl
  ⟨h.1, h.2 (fun _ => envFilterFail) [] rfl⟩

/-- Claim C9: when a due feed's fetch fails (transport error, bad status,
or unparsable body — any `FetchError`), the Poller sends no notification
and writes no seen-entry for the feed, yet still advances the feed's
last-checked timestamp to the current time; every other field of the
feed's stored row (and every other row) is unchanged.  The row hypothesis
says the in-memory feed agrees with its stored row on the fields the
`UPDATE` rewrites, as is the case for a feed returned by `ListDueFeeds`. -/
theorem processFeed_fetch_failure {ρ : Type} (env : PollEnv ρ) (feed : Feed)
    (st : StoreState) (e : FetchError)
    (hfetch : env.fetchResult = Except.error e)
    (hupd : env.updateFeedFails = false)
    (hrow : ∀ f ∈ st.feeds, f.id = feed.id →
      f.name = feed.name ∧ f.url = feed.url ∧
      f.intervalMinutes = feed.intervalMinutes ∧ f.isActive = feed.isActive) :
    processFeed env feed st =
      ([], { feeds := st.feeds.map (fun f =>
               if f.id = feed.id then { f with lastCheckAt := some env.now }
               else f),
             seen := st.seen }) := by
  unfold processFeed
  rw [hfetch]
  unfold updateLastCheck
  rw [hupd]
  simp only [Bool.false_eq_true, if_false]
  unfold UpdateFeed
  simp only [Prod.mk.injEq, StoreState.mk.injEq, true_and, and_true]
  apply List.map_congr_left
  intro f hf
  by_cases hid : f.id = feed.id
  · rcases hrow f hf hid with ⟨h1, h2, h3, h4⟩
    cases f
    simp_all
  · cases f
    simp_all

/-- A concrete poll environment whose fetch fails with a status error. -/
def envFetchFail : PollEnv Unit :=
  { lib := nullLib, sha256Sum := zeroSha, now := 1000,
    fetchResult := Except.error (FetchError.unexpectedStatus 404),
    filtersResult := Except.ok [],
    isSeenFails := fun _ => false, markSeenFails := fun _ => false,
    updateFeedFails := false }

theorem processFeed_fetch_failure_witness :
    processFeed envFetchFail cFeed cStore =
      ([], { feeds := cStore.feeds.map (fun f =>
               if f.id = cFeed.id then { f with lastCheckAt := some envFetchFail.now }
               else f),
             seen := cStore.seen }) :=
  processFeed_fetch_failure envFetchFail cFeed cStore
    (FetchError.unexpectedStatus 404) rfl rfl (by decide)

end RssBot
